import Mathlib

/-!
Verification of the MevResistAggregatorFHE contract
(src/contracts/mevResistAggregatorFHE.sol).

The contract is shallowly embedded: addresses, timestamps, uint256 values and
bytes32 words are modelled as Nat; Solidity mappings become functions out of
Nat with pointwise update; each external function becomes a Lean function from
a pre-state and its call arguments to either a revert error or a post-state
together with the list of emitted events.  Reverting leaves the state
unchanged, which the step function makes explicit.

External capabilities consumed by the contract (the keccak256 ciphertext-list
hash, the decryption oracle's signature check, abi.decode of the cleartexts,
and the mapping from an encrypted value to its bytes32 handle) are abstracted
into an environment record; theorems quantify over the environment and add the
hypotheses they need about it, and witnesses instantiate it concretely.
Encrypted euint32 values are modelled in the plaintext, as the homomorphic
library is an opaque capability: an encrypted slot is an Option Nat, none
standing for an uninitialized handle.
-/

namespace Mev

/-- Modulus of the 32-bit homomorphic integers (euint32). -/
def UINT32_MOD : Nat := 4294967296

/-- Pointwise update of a Solidity mapping modelled as a function. -/
def setMapN {α : Type} (m : Nat → α) (k : Nat) (v : α) : Nat → α :=
  fun j => if j = k then v else m j

/-- The DecryptionContext struct stored per requestId (source lines 20 to 24). -/
structure DecryptionContext where
  batchId : Nat
  stateHash : Nat
  processed : Bool
deriving DecidableEq, Repr

/-- The default struct value a Solidity mapping yields for an absent key. -/
def emptyContext : DecryptionContext := ⟨0, 0, false⟩

/-- The contract's storage variables (source lines 10 to 25). -/
structure ContractState where
  owner : Nat
  isProvider : Nat → Bool
  paused : Bool
  cooldownSeconds : Nat
  lastSubmissionTime : Nat → Nat
  lastDecryptionRequestTime : Nat → Nat
  currentBatchId : Nat
  isBatchOpen : Nat → Bool
  decryptionContexts : Nat → DecryptionContext

/-- State directly after the constructor (source lines 71 to 74): the deployer
owns the contract, every mapping is at its default and no batch exists. -/
def initialState (deployer : Nat) : ContractState :=
  { owner := deployer
    isProvider := fun _ => false
    paused := false
    cooldownSeconds := 0
    lastSubmissionTime := fun _ => 0
    lastDecryptionRequestTime := fun _ => 0
    currentBatchId := 0
    isBatchOpen := fun _ => false
    decryptionContexts := fun _ => emptyContext }

/-- The custom errors of the contract (source lines 39 to 47), together with
the two implicit revert causes inside myCallback: a failing
FHE.checkSignatures call and a failing abi.decode of the cleartexts.  The
spec refers to PausedState as SystemPaused, to BatchClosedOrInvalid as
InvalidBatch, to InvalidCooldown as InvalidConfig and to NotOwner or
NotProvider as Unauthorized. -/
inductive ContractError where
  | NotOwner
  | NotProvider
  | PausedState
  | CooldownActive
  | BatchClosedOrInvalid
  | ReplayAttempt
  | StateMismatch
  | InvalidBatchId
  | InvalidCooldown
  | SignatureCheckFailed
  | AbiDecodeFailed
deriving DecidableEq, Repr

/-- The events of the contract (source lines 27 to 37). -/
inductive Event where
  | OwnershipTransferred (previousOwner newOwner : Nat)
  | ProviderAdded (provider : Nat)
  | ProviderRemoved (provider : Nat)
  | Paused (account : Nat)
  | Unpaused (account : Nat)
  | CooldownSecondsSet (oldCooldownSeconds newCooldownSeconds : Nat)
  | BatchOpened (batchId : Nat)
  | BatchClosed (batchId : Nat)
  | DataSubmitted (provider batchId encryptedData : Nat)
  | DecryptionRequested (requestId batchId : Nat)
  | DecryptionCompleted (requestId batchId result : Nat)
deriving DecidableEq, Repr

/-- The external capabilities the contract consumes.  hashCts models
keccak256 of the abi encoding of a bytes32 array with the contract address
(source line 129); toBytes32 models the bytes32 handle of an encrypted value
(source line 171); checkSignatures models FHE.checkSignatures succeeding
(source line 211); decodeUint32 models abi.decode of the cleartexts into a
uint32, none standing for a decode revert (source line 216).  Cleartexts and
proofs, being opaque byte strings, are modelled as lists of Nat. -/
structure FheEnv where
  hashCts : List Nat → Nat
  toBytes32 : Nat → Nat
  checkSignatures : Nat → List Nat → List Nat → Bool
  decodeUint32 : List Nat → Option Nat

/-- Outcome of a call: a revert error, or a post-state with emitted events. -/
abbrev CallResult := Except ContractError (ContractState × List Event)

/-- transferOwnership (source lines 76 to 79). -/
def transferOwnership (s : ContractState) (sender newOwner : Nat) : CallResult :=
  if sender ≠ s.owner then .error .NotOwner
  else .ok ({ s with owner := newOwner }, [.OwnershipTransferred s.owner newOwner])

/-- addProvider (source lines 81 to 84). -/
def addProvider (s : ContractState) (sender provider : Nat) : CallResult :=
  if sender ≠ s.owner then .error .NotOwner
  else .ok ({ s with isProvider := setMapN s.isProvider provider true },
            [.ProviderAdded provider])

/-- removeProvider (source lines 86 to 89). -/
def removeProvider (s : ContractState) (sender provider : Nat) : CallResult :=
  if sender ≠ s.owner then .error .NotOwner
  else .ok ({ s with isProvider := setMapN s.isProvider provider false },
            [.ProviderRemoved provider])

/-- setPaused (source lines 91 to 99). -/
def setPaused (s : ContractState) (sender : Nat) (b : Bool) : CallResult :=
  if sender ≠ s.owner then .error .NotOwner
  else if b then .ok ({ s with paused := true }, [.Paused sender])
  else .ok ({ s with paused := false }, [.Unpaused sender])

/-- setCooldownSeconds (source lines 101 to 105). -/
def setCooldownSeconds (s : ContractState) (sender n : Nat) : CallResult :=
  if sender ≠ s.owner then .error .NotOwner
  else if n = s.cooldownSeconds then .error .InvalidCooldown
  else .ok ({ s with cooldownSeconds := n }, [.CooldownSecondsSet s.cooldownSeconds n])

/-- openBatch (source lines 107 to 111). -/
def openBatch (s : ContractState) (sender : Nat) : CallResult :=
  if sender ≠ s.owner then .error .NotOwner
  else if s.paused then .error .PausedState
  else .ok ({ s with currentBatchId := s.currentBatchId + 1,
                     isBatchOpen := setMapN s.isBatchOpen (s.currentBatchId + 1) true },
            [.BatchOpened (s.currentBatchId + 1)])

/-- closeBatch (source lines 113 to 117). -/
def closeBatch (s : ContractState) (sender batchId : Nat) : CallResult :=
  if sender ≠ s.owner then .error .NotOwner
  else if s.paused then .error .PausedState
  else if ¬ s.isBatchOpen batchId then .error .BatchClosedOrInvalid
  else .ok ({ s with isBatchOpen := setMapN s.isBatchOpen batchId false },
            [.BatchClosed batchId])

/-- submitEncryptedData (source lines 119 to 126), with its modifiers
onlyProvider, whenNotPaused and respectCooldown in declaration order. -/
def submitEncryptedData (s : ContractState) (sender now batchId encryptedData : Nat) :
    CallResult :=
  if ¬ s.isProvider sender then .error .NotProvider
  else if s.paused then .error .PausedState
  else if now < s.lastSubmissionTime sender + s.cooldownSeconds then .error .CooldownActive
  else if ¬ s.isBatchOpen batchId then .error .BatchClosedOrInvalid
  else .ok ({ s with lastSubmissionTime := setMapN s.lastSubmissionTime sender now },
            [.DataSubmitted sender batchId encryptedData])

/-- FHE.asEuint32 in the plaintext model (trivial encryption of a constant). -/
def asEuint32 (n : Nat) : Nat := n % UINT32_MOD

/-- Homomorphic 32-bit addition, in the plaintext model. -/
def fheAdd (a b : Nat) : Nat := (a + b) % UINT32_MOD

/-- Homomorphic greater-or-equal comparison, in the plaintext model. -/
def fheGe (a b : Nat) : Bool := decide (b ≤ a)

/-- Homomorphic select, in the plaintext model. -/
def fheSelect (c : Bool) (a b : Nat) : Nat := if c then a else b

/-- The lazy initialization of the two encrypted slots, then the homomorphic
pipeline of aggregateAndRequestDecryption (source lines 132 to 139 and 157 to
167): initialize uninitialized slots to an encrypted zero, add the two slots,
compare the sum against the encrypted threshold 100, and select an encrypted
one or zero from the encrypted boolean.  The result is the plaintext of the
single ciphertext the oracle is asked to decrypt. -/
def aggregatePipeline (encryptedValues : Option Nat × Option Nat) : Nat :=
  let v0 := match encryptedValues.1 with
    | none => asEuint32 0
    | some v => v
  let v1 := match encryptedValues.2 with
    | none => asEuint32 0
    | some v => v
  let encryptedSum := fheAdd v0 v1
  let threshold := asEuint32 100
  let isAboveThreshold := fheGe encryptedSum threshold
  fheSelect isAboveThreshold (asEuint32 1) (asEuint32 0)

/-- aggregateAndRequestDecryption (source lines 149 to 178).  The two
encrypted storage slots are passed in as call data, as in the source; the
requestId is the value returned by the external FHE.requestDecryption call
(source line 174) and is therefore an input of the model.  The ciphertext
list handed to the oracle is the singleton holding the handle of the decision
value (source lines 170 to 171), and the stored stateHash commits to exactly
that list (source line 173). -/
def aggregateAndRequestDecryption (env : FheEnv) (s : ContractState)
    (sender now batchId : Nat) (encryptedValues : Option Nat × Option Nat)
    (requestId : Nat) : CallResult :=
  if ¬ s.isProvider sender then .error .NotProvider
  else if s.paused then .error .PausedState
  else if now < s.lastDecryptionRequestTime sender + s.cooldownSeconds then
    .error .CooldownActive
  else if ¬ s.isBatchOpen batchId then .error .BatchClosedOrInvalid
  else
    let resultToDecrypt := aggregatePipeline encryptedValues
    let cts : List Nat := [env.toBytes32 resultToDecrypt]
    let stateHash := env.hashCts cts
    .ok ({ s with
            lastDecryptionRequestTime := setMapN s.lastDecryptionRequestTime sender now,
            decryptionContexts := setMapN s.decryptionContexts requestId
              ⟨batchId, stateHash, false⟩ },
         [.DecryptionRequested requestId batchId])

/-- myCallback (source lines 180 to 222).  The function is public with no
modifier, so the sender is an argument the body never reads.  It looks up the
stored context (a Solidity mapping lookup, yielding the default struct when
the requestId was never registered), reverts ReplayAttempt if processed,
recomputes the hash over the placeholder one-element array of zero handles
(source line 196), reverts StateMismatch if it differs from the stored
stateHash, runs the oracle signature check, decodes the cleartexts, and only
then marks the context processed and emits DecryptionCompleted. -/
def myCallback (env : FheEnv) (s : ContractState) (sender requestId : Nat)
    (cleartexts proof : List Nat) : CallResult :=
  let ctx := s.decryptionContexts requestId
  if ctx.processed then .error .ReplayAttempt
  else
    let ctsToVerify : List Nat := [0]
    let currentHash := env.hashCts ctsToVerify
    if currentHash ≠ ctx.stateHash then .error .StateMismatch
    else if ¬ env.checkSignatures requestId cleartexts proof then .error .SignatureCheckFailed
    else
      match env.decodeUint32 cleartexts with
      | none => .error .AbiDecodeFailed
      | some result =>
          let doneCtx : DecryptionContext := ⟨ctx.batchId, ctx.stateHash, true⟩
          .ok ({ s with decryptionContexts := setMapN s.decryptionContexts requestId doneCtx },
               [.DecryptionCompleted requestId ctx.batchId result])

/-- One external call to the contract, with all nondeterministic inputs the
environment supplies (caller, block timestamp, oracle requestId, encrypted
slot contents) made explicit. -/
inductive Op where
  | transferOwnership (sender newOwner : Nat)
  | addProvider (sender provider : Nat)
  | removeProvider (sender provider : Nat)
  | setPaused (sender : Nat) (b : Bool)
  | setCooldownSeconds (sender n : Nat)
  | openBatch (sender : Nat)
  | closeBatch (sender batchId : Nat)
  | submitEncryptedData (sender now batchId encryptedData : Nat)
  | aggregate (sender now batchId : Nat) (encryptedValues : Option Nat × Option Nat)
      (requestId : Nat)
  | callback (sender requestId : Nat) (cleartexts proof : List Nat)

/-- Dispatch one call. -/
def applyOp (env : FheEnv) (s : ContractState) : Op → CallResult
  | .transferOwnership sender newOwner => transferOwnership s sender newOwner
  | .addProvider sender provider => addProvider s sender provider
  | .removeProvider sender provider => removeProvider s sender provider
  | .setPaused sender b => setPaused s sender b
  | .setCooldownSeconds sender n => setCooldownSeconds s sender n
  | .openBatch sender => openBatch s sender
  | .closeBatch sender batchId => closeBatch s sender batchId
  | .submitEncryptedData sender now batchId d => submitEncryptedData s sender now batchId d
  | .aggregate sender now batchId ev requestId =>
      aggregateAndRequestDecryption env s sender now batchId ev requestId
  | .callback sender requestId cleartexts proof =>
      myCallback env s sender requestId cleartexts proof

/-- EVM revert semantics: a reverting call leaves the storage unchanged. -/
def step (env : FheEnv) (s : ContractState) (op : Op) : ContractState :=
  match applyOp env s op with
  | .ok (s', _) => s'
  | .error _ => s

/-- Run a sequence of external calls. -/
def execSeq (env : FheEnv) (s : ContractState) : List Op → ContractState
  | [] => s
  | op :: rest => execSeq env (step env s op) rest

/-- A concrete environment for witnesses: the hash encodes a list so that two
singleton lists collide only on equal heads, the handle of an encrypted value
is the value plus one (so never the zero word), signatures always verify and
the cleartexts decode to their first entry. -/
def env0 : FheEnv :=
  { hashCts := fun l => l.foldr (fun x acc => 2 * acc + x + 1) 0
    toBytes32 := fun v => v + 1
    checkSignatures := fun _ _ _ => true
    decodeUint32 := fun l => l.head? }

/-- A concrete environment in which every encrypted value has the all-zero
bytes32 handle, so the placeholder hash recomputed inside myCallback agrees
with the stored commitment and a callback can complete. -/
def envZ : FheEnv :=
  { hashCts := fun l => l.foldr (fun x acc => 2 * acc + x + 1) 0
    toBytes32 := fun _ => 0
    checkSignatures := fun _ _ _ => true
    decodeUint32 := fun l => l.head? }

/-- A concrete state holding one already-processed decryption context. -/
def procState : ContractState :=
  { initialState 0 with
      decryptionContexts :=
        setMapN (initialState 0).decryptionContexts 7 (DecryptionContext.mk 1 5 true) }

/-- Claim C1: once the stored context for a requestId has processed set, every
further myCallback invocation with that requestId, whatever the payload and
whoever the caller, reverts with ReplayAttempt, and the contract state, in
particular the stored record and any disclosed result, is unchanged. -/
theorem C1_callback_replay_guard (env : FheEnv) (s : ContractState)
    (sender requestId : Nat) (cleartexts proof : List Nat)
    (h : (s.decryptionContexts requestId).processed = true) :
    myCallback env s sender requestId cleartexts proof = .error .ReplayAttempt ∧
    step env s (.callback sender requestId cleartexts proof) = s := by
  constructor
  · simp [myCallback, h]
  · simp [step, applyOp, myCallback, h]

/-- Witness for C1 at a concrete processed context. -/
theorem C1_witness :
    myCallback env0 procState 3 7 [1, 2] [] = .error .ReplayAttempt ∧
    step env0 procState (.callback 3 7 [1, 2] []) = procState :=
  C1_callback_replay_guard env0 procState 3 7 [1, 2] [] (by decide)

/-- Claim C3: with the context not yet processed, a recomputed hash differing
from the stored stateHash makes myCallback revert with StateMismatch, leaving
processed false; every revert of myCallback leaves the whole state unchanged;
and myCallback succeeds only if the replay, hash and signature checks all
pass, and only then marks the context processed and emits DecryptionCompleted
with the decoded result. -/
theorem C3_callback_no_partial_finalization (env : FheEnv) (s : ContractState)
    (sender requestId : Nat) (cleartexts proof : List Nat) :
    ((s.decryptionContexts requestId).processed = false →
      env.hashCts [0] ≠ (s.decryptionContexts requestId).stateHash →
      myCallback env s sender requestId cleartexts proof = .error .StateMismatch) ∧
    (∀ e, myCallback env s sender requestId cleartexts proof = .error e →
      step env s (.callback sender requestId cleartexts proof) = s) ∧
    (∀ s' evs, myCallback env s sender requestId cleartexts proof = .ok (s', evs) →
      (s.decryptionContexts requestId).processed = false ∧
      env.hashCts [0] = (s.decryptionContexts requestId).stateHash ∧
      env.checkSignatures requestId cleartexts proof = true ∧
      (s'.decryptionContexts requestId).processed = true ∧
      ∃ r, env.decodeUint32 cleartexts = some r ∧
        evs = [.DecryptionCompleted requestId (s.decryptionContexts requestId).batchId r]) := by
  refine ⟨?_, ?_, ?_⟩
  · intro h1 h2
    simp [myCallback, h1, h2]
  · intro e he
    simp only [step, applyOp]
    rw [he]
  · intro s' evs hok
    unfold myCallback at hok
    by_cases hproc : (s.decryptionContexts requestId).processed = true
    · simp [hproc] at hok
    · by_cases hhash : env.hashCts [0] = (s.decryptionContexts requestId).stateHash
      · by_cases hsig : env.checkSignatures requestId cleartexts proof = true
        · cases hdec : env.decodeUint32 cleartexts with
          | none => simp [hproc, hhash, hsig, hdec] at hok
          | some r =>
            simp only [hproc, hhash, hsig, hdec, ite_not, not_true, Bool.not_eq_true,
              if_false, ne_eq, not_not, ite_true, if_true, ite_self, if_neg, if_pos,
              Except.ok.injEq, Prod.mk.injEq, not_false_iff, ite_false] at hok
            obtain ⟨hs', hevs⟩ := hok
            refine ⟨by simpa using hproc, hhash, hsig, ?_, r, rfl, hevs.symm⟩
            rw [← hs']
            simp [setMapN]
        · simp [hproc, hhash, hsig] at hok
      · simp [hproc, hhash] at hok

/-- Witness for C3: the StateMismatch branch at a concrete unregistered
requestId whose stored hash is zero while the recomputed hash is not. -/
theorem C3_witness :
    myCallback env0 (initialState 0) 2 9 [4] [] = .error .StateMismatch :=
  (C3_callback_no_partial_finalization env0 (initialState 0) 2 9 [4] []).1
    (by decide) (by decide)

/-- Counterexample to claim C4: in the freshly deployed contract no context
was ever registered for requestId 42, yet myCallback reverts with
StateMismatch rather than any absence error; the contract defines no
UnknownRequest error at all, so no invocation can ever fail with it. -/
theorem C4_counterexample :
    myCallback env0 (initialState 0) 1 42 [] [] = .error .StateMismatch := rfl

/-- Claim C4 amended: myCallback performs no existence check and the contract
declares no UnknownRequest error; for a requestId that was never registered
the mapping lookup yields the default all-zero context, and whenever the
recomputed placeholder hash is nonzero the call reverts with StateMismatch
instead. -/
theorem C4_unknown_request_hits_state_mismatch (env : FheEnv) (s : ContractState)
    (sender requestId : Nat) (cleartexts proof : List Nat)
    (habsent : s.decryptionContexts requestId = emptyContext)
    (hhash : env.hashCts [0] ≠ 0) :
    myCallback env s sender requestId cleartexts proof = .error .StateMismatch := by
  simp [myCallback, habsent, emptyContext, hhash]

/-- Witness for the amended C4 at a concrete fresh state. -/
theorem C4_witness :
    myCallback env0 (initialState 0) 0 5 [] [] = .error .StateMismatch :=
  C4_unknown_request_hits_state_mismatch env0 (initialState 0) 0 5 [] [] rfl (by decide)

/-- Claim C9: setCooldownSeconds called by the owner reverts with
InvalidCooldown (the error the spec names InvalidConfig) exactly when the new
value equals the current one, and otherwise updates cooldownSeconds and emits
the event carrying the old and the new value. -/
theorem C9_setCooldown_rejects_noop (s : ContractState) (sender n : Nat)
    (howner : sender = s.owner) :
    (n = s.cooldownSeconds → setCooldownSeconds s sender n = .error .InvalidCooldown) ∧
    (n ≠ s.cooldownSeconds →
      setCooldownSeconds s sender n =
        .ok ({ s with cooldownSeconds := n }, [.CooldownSecondsSet s.cooldownSeconds n])) := by
  constructor
  · intro h
    simp [setCooldownSeconds, howner, h]
  · intro h
    simp [setCooldownSeconds, howner, h]

/-- Witness for C9: the owner of the fresh contract cannot re-set the default
cooldown of zero to zero, and setting it to five stores five. -/
theorem C9_witness :
    setCooldownSeconds (initialState 0) 0 0 = .error .InvalidCooldown ∧
    setCooldownSeconds (initialState 0) 0 5 =
      .ok ({ initialState 0 with cooldownSeconds := 5 }, [.CooldownSecondsSet 0 5]) := by
  constructor
  · exact (C9_setCooldown_rejects_noop (initialState 0) 0 0 rfl).1 rfl
  · exact (C9_setCooldown_rejects_noop (initialState 0) 0 5 rfl).2 (by decide)

/-- Whether a call completed without reverting. -/
def exceptIsOk : CallResult → Bool
  | .ok _ => true
  | .error _ => false

/-- A reachable paused state holding one pending decryption request whose
single ciphertext handle is the zero word (environment envZ), registered
before the owner paused the system. -/
def pausedWithPending : ContractState :=
  execSeq envZ (initialState 0)
    [Op.addProvider 0 5, Op.openBatch 0, Op.aggregate 5 0 1 (some 10, some 95) 7,
     Op.setPaused 0 true]

/-- Counterexample to claim C2: in a reachable paused state with a pending
request, myCallback does not revert with PausedState; it completes and flips
the stored processed flag while the system is paused, because myCallback
carries no whenNotPaused modifier. -/
theorem C2_counterexample :
    pausedWithPending.paused = true ∧
    exceptIsOk (myCallback envZ pausedWithPending 9 7 [1] []) = true ∧
    ((step envZ pausedWithPending (Op.callback 9 7 [1] [])).decryptionContexts 7).processed
      = true :=
  ⟨rfl, rfl, rfl⟩

/-- Claim C2 amended: while paused, openBatch, closeBatch, submitEncryptedData
and aggregateAndRequestDecryption all revert with PausedState (the error the
spec names SystemPaused) for any authorized caller, but myCallback is not
pause-gated; and setPaused false only clears the pause flag, leaving cooldown
timestamps, batch open state, the batch counter and the cooldown setting
untouched, so prior behavior is restored. -/
theorem C2_pause_gating (env : FheEnv) (s : ContractState) (sender : Nat)
    (hp : s.paused = true) :
    (sender = s.owner → openBatch s sender = .error .PausedState) ∧
    (sender = s.owner → ∀ batchId, closeBatch s sender batchId = .error .PausedState) ∧
    (s.isProvider sender = true → ∀ now batchId d,
      submitEncryptedData s sender now batchId d = .error .PausedState) ∧
    (s.isProvider sender = true → ∀ now batchId ev requestId,
      aggregateAndRequestDecryption env s sender now batchId ev requestId =
        .error .PausedState) ∧
    (sender = s.owner →
      setPaused s sender false = .ok ({ s with paused := false }, [.Unpaused sender]) ∧
      ({ s with paused := false }).lastSubmissionTime = s.lastSubmissionTime ∧
      ({ s with paused := false }).lastDecryptionRequestTime = s.lastDecryptionRequestTime ∧
      ({ s with paused := false }).isBatchOpen = s.isBatchOpen ∧
      ({ s with paused := false }).currentBatchId = s.currentBatchId ∧
      ({ s with paused := false }).cooldownSeconds = s.cooldownSeconds ∧
      ({ s with paused := false }).decryptionContexts = s.decryptionContexts) := by
  refine ⟨?_, ?_, ?_, ?_, ?_⟩
  · intro howner
    simp [openBatch, howner, hp]
  · intro howner batchId
    simp [closeBatch, howner, hp]
  · intro hprov now batchId d
    simp [submitEncryptedData, hprov, hp]
  · intro hprov now batchId ev requestId
    simp [aggregateAndRequestDecryption, hprov, hp]
  · intro howner
    exact ⟨by simp [setPaused, howner], rfl, rfl, rfl, rfl, rfl, rfl⟩

/-- Witness for the amended C2 at the concrete reachable paused state. -/
theorem C2_witness :
    openBatch pausedWithPending 0 = .error .PausedState ∧
    submitEncryptedData pausedWithPending 5 50 1 3 = .error .PausedState := by
  have h := C2_pause_gating envZ pausedWithPending 0 (by decide)
  have h5 := C2_pause_gating envZ pausedWithPending 5 (by decide)
  exact ⟨h.1 (by decide), h5.2.2.1 (by decide) 50 1 3⟩

/-- Extraction lemma shared by the decryption-request claims: a successful
aggregateAndRequestDecryption stores, under the oracle-issued requestId, the
context committing to the singleton ciphertext list holding the handle of the
pipeline's decision value, with processed false. -/
theorem aggregate_ok_context (env : FheEnv) (s : ContractState)
    (sender now batchId requestId : Nat) (ev : Option Nat × Option Nat)
    (s' : ContractState) (evs : List Event)
    (hreq : aggregateAndRequestDecryption env s sender now batchId ev requestId =
      .ok (s', evs)) :
    s'.decryptionContexts requestId =
      ⟨batchId, env.hashCts [env.toBytes32 (aggregatePipeline ev)], false⟩ ∧
    evs = [.DecryptionRequested requestId batchId] := by
  unfold aggregateAndRequestDecryption at hreq
  by_cases h1 : s.isProvider sender = true
  · by_cases h2 : s.paused = true
    · simp [h1, h2] at hreq
    · by_cases h3 : now < s.lastDecryptionRequestTime sender + s.cooldownSeconds
      · simp [h1, h2, h3] at hreq
      · by_cases h4 : s.isBatchOpen batchId = true
        · simp only [h1, h2, h3, h4, Bool.not_eq_true, if_neg, if_pos, ite_true,
            ite_false, not_true, not_false_iff, Except.ok.injEq, Prod.mk.injEq] at hreq
          obtain ⟨hs', hevs⟩ := hreq
          subst hs'
          exact ⟨by simp [setMapN], hevs.symm⟩
        · simp [h1, h2, h3, h4] at hreq
  · simp [h1] at hreq

/-- Claim C5: if a registered request commits to a nonzero ciphertext handle,
then as long as the stored context is the registered one, every myCallback
invocation for that requestId reverts with StateMismatch (the callback hashes
the fixed placeholder list of one zero handle, which an injective hash maps
away from the commitment), so processed never becomes true and
DecryptionCompleted is never emitted for the request. -/
theorem C5_nonzero_handle_never_finalizes (env : FheEnv) (s : ContractState)
    (sender now batchId requestId : Nat) (ev : Option Nat × Option Nat)
    (s' : ContractState) (evs : List Event)
    (hreq : aggregateAndRequestDecryption env s sender now batchId ev requestId =
      .ok (s', evs))
    (hinj : ∀ a b : Nat, env.hashCts [a] = env.hashCts [b] → a = b)
    (hnz : env.toBytes32 (aggregatePipeline ev) ≠ 0) :
    (s'.decryptionContexts requestId).processed = false ∧
    (∀ (s₂ : ContractState) (sender₂ : Nat) (cleartexts proof : List Nat),
      s₂.decryptionContexts requestId = s'.decryptionContexts requestId →
      myCallback env s₂ sender₂ requestId cleartexts proof = .error .StateMismatch) := by
  obtain ⟨hctx, -⟩ := aggregate_ok_context env s sender now batchId requestId ev s' evs hreq
  constructor
  · rw [hctx]
  · intro s₂ sender₂ cleartexts proof h₂
    rw [hctx] at h₂
    have hne : env.hashCts [0] ≠ env.hashCts [env.toBytes32 (aggregatePipeline ev)] := by
      intro hcol
      exact hnz (hinj 0 (env.toBytes32 (aggregatePipeline ev)) hcol).symm
    simp [myCallback, h₂, hne]

/-- A reachable state with provider 5 registered and batch 1 open. -/
def provState : ContractState :=
  execSeq env0 (initialState 0) [Op.addProvider 0 5, Op.openBatch 0]

/-- Witness for C5: under the concrete injective environment, the callback
for the concrete registered request with handle 2 reverts with StateMismatch. -/
theorem C5_witness :
    myCallback env0 (step env0 provState (Op.aggregate 5 0 1 (some 10, some 95) 7))
      2 7 [1] [] = .error .StateMismatch := by
  have h := C5_nonzero_handle_never_finalizes env0 provState 5 0 1 7 (some 10, some 95)
    (step env0 provState (Op.aggregate 5 0 1 (some 10, some 95) 7))
    [Event.DecryptionRequested 7 1] rfl
    (by
      intro a b hab
      simp [env0] at hab
      omega)
    (by decide)
  exact h.2 _ 2 [1] [] rfl

/-- Claim C7: the aggregation pipeline lazily zero-initializes empty slots,
homomorphically adds the two slots, compares the sum with the encrypted
threshold 100 and selects an encrypted one or zero; the request commits to
the singleton ciphertext list holding only that binary decision handle, never
the raw sum; plaintexts summing to 105 yield decision 1, summing to 60 yield
decision 0, and a completed callback whose cleartexts decode to the decision
emits DecryptionCompleted with exactly that result. -/
theorem C7_aggregation_pipeline (env : FheEnv) (s : ContractState)
    (sender now batchId requestId : Nat)
    (hprov : s.isProvider sender = true) (hp : s.paused = false)
    (hcool : ¬ now < s.lastDecryptionRequestTime sender + s.cooldownSeconds)
    (hopen : s.isBatchOpen batchId = true) :
    aggregatePipeline (some 10, some 95) = 1 ∧
    aggregatePipeline (some 10, some 50) = 0 ∧
    (∀ ev : Option Nat × Option Nat, aggregatePipeline ev = 0 ∨ aggregatePipeline ev = 1) ∧
    (∀ ev : Option Nat × Option Nat, ∃ s',
      aggregateAndRequestDecryption env s sender now batchId ev requestId =
        .ok (s', [.DecryptionRequested requestId batchId]) ∧
      s'.decryptionContexts requestId =
        ⟨batchId, env.hashCts [env.toBytes32 (aggregatePipeline ev)], false⟩) ∧
    (∀ (s₂ : ContractState) (sender₂ : Nat) (cleartexts proof : List Nat)
        (s₃ : ContractState) (evs : List Event) (ev : Option Nat × Option Nat),
      s₂.decryptionContexts requestId =
        ⟨batchId, env.hashCts [env.toBytes32 (aggregatePipeline ev)], false⟩ →
      env.decodeUint32 cleartexts = some (aggregatePipeline ev) →
      myCallback env s₂ sender₂ requestId cleartexts proof = .ok (s₃, evs) →
      evs = [.DecryptionCompleted requestId batchId (aggregatePipeline ev)]) := by
  refine ⟨by decide, by decide, ?_, ?_, ?_⟩
  · intro ev
    obtain ⟨v0, v1⟩ := ev
    cases v0 <;> cases v1 <;>
      · unfold aggregatePipeline fheSelect
        split <;> simp [asEuint32, UINT32_MOD]
  · intro ev
    refine ⟨{ s with
        lastDecryptionRequestTime := setMapN s.lastDecryptionRequestTime sender now,
        decryptionContexts := setMapN s.decryptionContexts requestId
          (DecryptionContext.mk batchId
            (env.hashCts [env.toBytes32 (aggregatePipeline ev)]) false) }, ?_, ?_⟩
    · unfold aggregateAndRequestDecryption
      rw [if_neg (by simp [hprov]), if_neg (by simp [hp]), if_neg hcool,
        if_neg (by simp [hopen])]
    · simp [setMapN]
  · intro s₂ sender₂ cleartexts proof s₃ evs ev hctx hdec hok
    unfold myCallback at hok
    rw [hctx] at hok
    by_cases hhash : env.hashCts [0] = env.hashCts [env.toBytes32 (aggregatePipeline ev)]
    · by_cases hsig : env.checkSignatures requestId cleartexts proof = true
      · rw [if_neg (by simp), if_neg (by simp [hhash]), if_neg (by simp [hsig]),
          hdec] at hok
        simp only [Except.ok.injEq, Prod.mk.injEq] at hok
        exact hok.2.symm
      · simp [hhash, hsig] at hok
    · simp [hhash] at hok

/-- Witness for C7: the two concrete aggregation scenarios at a reachable
state with an open batch and a registered provider. -/
theorem C7_witness :
    aggregatePipeline (some 10, some 95) = 1 ∧
    aggregatePipeline (some 10, some 50) = 0 :=
  ⟨(C7_aggregation_pipeline env0 provState 5 0 1 7 (by decide) (by decide)
      (by decide) (by decide)).1,
   (C7_aggregation_pipeline env0 provState 5 0 1 7 (by decide) (by decide)
      (by decide) (by decide)).2.1⟩

/-- Claim C8: for a provider on an open batch with the system not paused, a
submission strictly less than cooldownSeconds after the caller's previous one
reverts with CooldownActive, a submission exactly cooldownSeconds after it
succeeds, every successful submission records the caller's submission time
as now without touching any other caller's, and the cooldown outcome does not
depend on which open batch is targeted. -/
theorem C8_submission_cooldown (s : ContractState) (sender now batchId d : Nat)
    (hprov : s.isProvider sender = true) (hp : s.paused = false)
    (hopen : s.isBatchOpen batchId = true) :
    (now < s.lastSubmissionTime sender + s.cooldownSeconds →
      submitEncryptedData s sender now batchId d = .error .CooldownActive) ∧
    (now = s.lastSubmissionTime sender + s.cooldownSeconds →
      submitEncryptedData s sender now batchId d =
        .ok ({ s with lastSubmissionTime := setMapN s.lastSubmissionTime sender now },
             [.DataSubmitted sender batchId d])) ∧
    (∀ s' evs, submitEncryptedData s sender now batchId d = .ok (s', evs) →
      s'.lastSubmissionTime sender = now ∧
      ∀ other, other ≠ sender → s'.lastSubmissionTime other = s.lastSubmissionTime other) ∧
    (∀ batchId', s.isBatchOpen batchId' = true →
      (submitEncryptedData s sender now batchId d = .error .CooldownActive ↔
        submitEncryptedData s sender now batchId' d = .error .CooldownActive)) := by
  refine ⟨?_, ?_, ?_, ?_⟩
  · intro hlt
    simp [submitEncryptedData, hprov, hp, hlt]
  · intro heq
    unfold submitEncryptedData
    rw [if_neg (by simp [hprov]), if_neg (by simp [hp]), if_neg (by omega),
      if_neg (by simp [hopen])]
  · intro s' evs hok
    unfold submitEncryptedData at hok
    by_cases hlt : now < s.lastSubmissionTime sender + s.cooldownSeconds
    · simp [hprov, hp, hlt] at hok
    · rw [if_neg (by simp [hprov]), if_neg (by simp [hp]), if_neg hlt,
        if_neg (by simp [hopen])] at hok
      simp only [Except.ok.injEq, Prod.mk.injEq] at hok
      obtain ⟨hs', -⟩ := hok
      rw [← hs']
      constructor
      · simp [setMapN]
      · intro other hother
        simp [setMapN, hother]
  · intro batchId' hopen'
    by_cases hlt : now < s.lastSubmissionTime sender + s.cooldownSeconds
    · simp [submitEncryptedData, hprov, hp, hlt]
    · constructor
      · intro h
        rw [submitEncryptedData, if_neg (by simp [hprov]), if_neg (by simp [hp]),
          if_neg hlt, if_neg (by simp [hopen])] at h
        exact absurd h (by simp)
      · intro h
        rw [submitEncryptedData, if_neg (by simp [hprov]), if_neg (by simp [hp]),
          if_neg hlt, if_neg (by simp [hopen'])] at h
        exact absurd h (by simp)

/-- A reachable state where provider 5 last submitted at time 100 under a
cooldown of 10 seconds, with batch 1 open. -/
def cooledState : ContractState :=
  execSeq env0 (initialState 0)
    [Op.addProvider 0 5, Op.openBatch 0, Op.setCooldownSeconds 0 10,
     Op.submitEncryptedData 5 100 1 77]

/-- Witness for C8: at the concrete state, resubmitting 5 seconds later
reverts with CooldownActive and resubmitting exactly 10 seconds later
succeeds. -/
theorem C8_witness :
    submitEncryptedData cooledState 5 105 1 3 = .error .CooldownActive ∧
    submitEncryptedData cooledState 5 110 1 3 =
      .ok ({ cooledState with
              lastSubmissionTime := setMapN cooledState.lastSubmissionTime 5 110 },
           [.DataSubmitted 5 1 3]) := by
  constructor
  · exact (C8_submission_cooldown cooledState 5 105 1 3 (by decide) (by decide)
      (by decide)).1 (by decide)
  · exact (C8_submission_cooldown cooledState 5 110 1 3 (by decide) (by decide)
      (by decide)).2.1 (by decide)

/-- The batch-ledger invariant: every open batch id lies between one and the
current value of the batch counter. -/
def batchInv (s : ContractState) : Prop :=
  ∀ id, s.isBatchOpen id = true → 1 ≤ id ∧ id ≤ s.currentBatchId

/-- The given call is an openBatch that succeeds on this state and allocates
the given id. -/
def Allocates (s : ContractState) (op : Op) (id : Nat) : Prop :=
  ∃ sender, op = Op.openBatch sender ∧ sender = s.owner ∧ s.paused = false ∧
    id = s.currentBatchId + 1

/-- No call of the sequence, run from the given state, opens the given id. -/
def TraceAvoids (env : FheEnv) (id : Nat) : ContractState → List Op → Prop
  | _, [] => True
  | s, op :: rest => ¬ Allocates s op id ∧ TraceAvoids env id (step env s op) rest

/-- Every call either leaves the batch ledger untouched, is a successful
openBatch marking the freshly incremented counter value open, or is a
successful closeBatch marking one currently open id closed. -/
theorem step_batch_cases (env : FheEnv) (s : ContractState) (op : Op) :
    ((step env s op).isBatchOpen = s.isBatchOpen ∧
      (step env s op).currentBatchId = s.currentBatchId) ∨
    (Allocates s op (s.currentBatchId + 1) ∧
      (step env s op).isBatchOpen = setMapN s.isBatchOpen (s.currentBatchId + 1) true ∧
      (step env s op).currentBatchId = s.currentBatchId + 1) ∨
    (∃ b, s.isBatchOpen b = true ∧
      (step env s op).isBatchOpen = setMapN s.isBatchOpen b false ∧
      (step env s op).currentBatchId = s.currentBatchId) := by
  cases op with
  | openBatch sender =>
    by_cases h1 : sender = s.owner
    · by_cases h2 : s.paused = true
      · left
        constructor <;> simp [step, applyOp, openBatch, h1, h2]
      · right; left
        refine ⟨⟨sender, rfl, h1, by simpa using h2, rfl⟩, ?_, ?_⟩ <;>
          simp [step, applyOp, openBatch, h1, h2]
    · left
      constructor <;> simp [step, applyOp, openBatch, h1]
  | closeBatch sender batchId =>
    by_cases h1 : sender = s.owner
    · by_cases h2 : s.paused = true
      · left
        constructor <;> simp [step, applyOp, closeBatch, h1, h2]
      · by_cases h3 : s.isBatchOpen batchId = true
        · right; right
          refine ⟨batchId, h3, ?_, ?_⟩ <;> simp [step, applyOp, closeBatch, h1, h2, h3]
        · left
          constructor <;> simp [step, applyOp, closeBatch, h1, h2, h3]
    · left
      constructor <;> simp [step, applyOp, closeBatch, h1]
  | transferOwnership sender newOwner =>
    left
    by_cases h1 : sender = s.owner <;>
      exact ⟨by simp [step, applyOp, transferOwnership, h1],
             by simp [step, applyOp, transferOwnership, h1]⟩
  | addProvider sender provider =>
    left
    by_cases h1 : sender = s.owner <;>
      exact ⟨by simp [step, applyOp, addProvider, h1],
             by simp [step, applyOp, addProvider, h1]⟩
  | removeProvider sender provider =>
    left
    by_cases h1 : sender = s.owner <;>
      exact ⟨by simp [step, applyOp, removeProvider, h1],
             by simp [step, applyOp, removeProvider, h1]⟩
  | setPaused sender b =>
    left
    by_cases h1 : sender = s.owner <;> cases b <;>
      exact ⟨by simp [step, applyOp, setPaused, h1],
             by simp [step, applyOp, setPaused, h1]⟩
  | setCooldownSeconds sender n =>
    left
    by_cases h1 : sender = s.owner <;> by_cases h2 : n = s.cooldownSeconds <;>
      exact ⟨by simp [step, applyOp, setCooldownSeconds, h1, h2],
             by simp [step, applyOp, setCooldownSeconds, h1, h2]⟩
  | submitEncryptedData sender now batchId d =>
    left
    by_cases h1 : s.isProvider sender = true <;> by_cases h2 : s.paused = true <;>
      by_cases h3 : now < s.lastSubmissionTime sender + s.cooldownSeconds <;>
      by_cases h4 : s.isBatchOpen batchId = true <;>
      exact ⟨by simp [step, applyOp, submitEncryptedData, h1, h2, h3, h4],
             by simp [step, applyOp, submitEncryptedData, h1, h2, h3, h4]⟩
  | aggregate sender now batchId ev requestId =>
    left
    by_cases h1 : s.isProvider sender = true <;> by_cases h2 : s.paused = true <;>
      by_cases h3 : now < s.lastDecryptionRequestTime sender + s.cooldownSeconds <;>
      by_cases h4 : s.isBatchOpen batchId = true <;>
      exact ⟨by simp [step, applyOp, aggregateAndRequestDecryption, h1, h2, h3, h4],
             by simp [step, applyOp, aggregateAndRequestDecryption, h1, h2, h3, h4]⟩
  | callback sender requestId cleartexts proof =>
    left
    by_cases h1 : (s.decryptionContexts requestId).processed = true <;>
      by_cases h2 : env.hashCts [0] = (s.decryptionContexts requestId).stateHash <;>
      by_cases h3 : env.checkSignatures requestId cleartexts proof = true <;>
      cases h4 : env.decodeUint32 cleartexts <;>
      exact ⟨by simp [step, applyOp, myCallback, h1, h2, h3, h4],
             by simp [step, applyOp, myCallback, h1, h2, h3, h4]⟩

/-- The batch counter never decreases across a call. -/
theorem step_batchId_mono (env : FheEnv) (s : ContractState) (op : Op) :
    s.currentBatchId ≤ (step env s op).currentBatchId := by
  rcases step_batch_cases env s op with ⟨-, h⟩ | ⟨-, -, h⟩ | ⟨b, -, -, h⟩ <;> omega

/-- One call preserves the batch-ledger invariant. -/
theorem step_batchInv (env : FheEnv) (s : ContractState) (op : Op) (h : batchInv s) :
    batchInv (step env s op) := by
  rcases step_batch_cases env s op with ⟨ho, hc⟩ | ⟨-, ho, hc⟩ | ⟨b, hb, ho, hc⟩ <;>
    intro id hid <;> rw [ho] at hid <;> rw [hc]
  · exact h id hid
  · by_cases hq : id = s.currentBatchId + 1
    · omega
    · simp only [setMapN, if_neg hq] at hid
      have := h id hid
      omega
  · by_cases hq : id = b
    · subst hq
      simp [setMapN] at hid
    · simp only [setMapN, if_neg hq] at hid
      exact h id hid

/-- A call that does not allocate the id keeps a closed id closed. -/
theorem step_not_opened (env : FheEnv) (s : ContractState) (op : Op) (id : Nat)
    (hna : ¬ Allocates s op id) (h : s.isBatchOpen id = false) :
    (step env s op).isBatchOpen id = false := by
  rcases step_batch_cases env s op with ⟨ho, -⟩ | ⟨hall, ho, -⟩ | ⟨b, -, ho, -⟩ <;> rw [ho]
  · exact h
  · by_cases hq : id = s.currentBatchId + 1
    · subst hq
      exact absurd hall hna
    · simp only [setMapN, if_neg hq]
      exact h
  · by_cases hq : id = b
    · simp [setMapN, hq]
    · simp only [setMapN, if_neg hq]
      exact h

/-- Running an appended sequence is running the two parts in order. -/
theorem execSeq_append (env : FheEnv) (l₁ l₂ : List Op) (s : ContractState) :
    execSeq env s (l₁ ++ l₂) = execSeq env (execSeq env s l₁) l₂ := by
  induction l₁ generalizing s with
  | nil => rfl
  | cons op rest ih => simp [execSeq, ih]

/-- The batch counter never decreases across a sequence of calls. -/
theorem execSeq_batchId_mono (env : FheEnv) (l : List Op) (s : ContractState) :
    s.currentBatchId ≤ (execSeq env s l).currentBatchId := by
  induction l generalizing s with
  | nil => exact Nat.le_refl _
  | cons op rest ih => exact Nat.le_trans (step_batchId_mono env s op) (ih _)

/-- A sequence of calls preserves the batch-ledger invariant. -/
theorem execSeq_batchInv (env : FheEnv) (l : List Op) (s : ContractState)
    (h : batchInv s) : batchInv (execSeq env s l) := by
  induction l generalizing s with
  | nil => exact h
  | cons op rest ih => exact ih _ (step_batchInv env s op h)

/-- A closed id stays closed along any sequence that never allocates it. -/
theorem execSeq_never_opened (env : FheEnv) (id : Nat) (l : List Op) (s : ContractState)
    (h : s.isBatchOpen id = false) (hav : TraceAvoids env id s l) :
    (execSeq env s l).isBatchOpen id = false := by
  induction l generalizing s with
  | nil => exact h
  | cons op rest ih =>
    obtain ⟨h1, h2⟩ := hav
    exact ih _ (step_not_opened env s op id h1 h) h2

/-- Claim C6: over every sequence of calls from deployment, the batch counter
starts at zero and a successful openBatch allocates exactly the incremented
counter (ids one, two, three in order, never reused); every open id lies
between one and the counter; the counter is monotone along prefixes; every id
above the counter is closed; the id the next openBatch would allocate was
never open at any earlier point of the run (so a closed id is never
reopened); an id no call of the run allocates stays closed throughout; and
closeBatch on an id that is not currently open reverts with
BatchClosedOrInvalid (the error the spec names InvalidBatch). -/
theorem C6_batch_lifecycle (env : FheEnv) (deployer : Nat) :
    (initialState deployer).currentBatchId = 0 ∧
    (∀ (s : ContractState) (sender : Nat), sender = s.owner → s.paused = false →
      openBatch s sender =
        .ok ({ s with
                currentBatchId := s.currentBatchId + 1,
                isBatchOpen := setMapN s.isBatchOpen (s.currentBatchId + 1) true },
          [.BatchOpened (s.currentBatchId + 1)])) ∧
    (∀ l, batchInv (execSeq env (initialState deployer) l)) ∧
    (∀ l₁ l₂, (execSeq env (initialState deployer) l₁).currentBatchId ≤
      (execSeq env (initialState deployer) (l₁ ++ l₂)).currentBatchId) ∧
    (∀ l id, (execSeq env (initialState deployer) l).currentBatchId < id →
      (execSeq env (initialState deployer) l).isBatchOpen id = false) ∧
    (∀ l₁ l₂, (execSeq env (initialState deployer) l₁).isBatchOpen
      ((execSeq env (initialState deployer) (l₁ ++ l₂)).currentBatchId + 1) = false) ∧
    (∀ l id, TraceAvoids env id (initialState deployer) l →
      (execSeq env (initialState deployer) l).isBatchOpen id = false) ∧
    (∀ (s : ContractState) (sender id : Nat), sender = s.owner → s.paused = false →
      s.isBatchOpen id = false →
      closeBatch s sender id = .error .BatchClosedOrInvalid) := by
  have hinv : ∀ l, batchInv (execSeq env (initialState deployer) l) := by
    intro l
    apply execSeq_batchInv
    intro id hid
    simp [initialState] at hid
  have hclosed : ∀ l id, (execSeq env (initialState deployer) l).currentBatchId < id →
      (execSeq env (initialState deployer) l).isBatchOpen id = false := by
    intro l id hlt
    cases hx : (execSeq env (initialState deployer) l).isBatchOpen id with
    | false => rfl
    | true =>
      have := hinv l id hx
      omega
  refine ⟨rfl, ?_, hinv, ?_, hclosed, ?_, ?_, ?_⟩
  · intro s sender h1 h2
    unfold openBatch
    rw [if_neg (by simp [h1]), if_neg (by simp [h2])]
  · intro l₁ l₂
    rw [execSeq_append]
    exact execSeq_batchId_mono env l₂ _
  · intro l₁ l₂
    apply hclosed
    have := execSeq_batchId_mono env l₂ (execSeq env (initialState deployer) l₁)
    rw [execSeq_append]
    omega
  · intro l id hav
    exact execSeq_never_opened env id l (initialState deployer) rfl hav
  · intro s sender id h1 h2 h3
    unfold closeBatch
    rw [if_neg (by simp [h1]), if_neg (by simp [h2]), if_pos (by simp [h3])]

/-- Witness for C6: the first openBatch of the fresh contract allocates batch
one, and closing the never-opened batch three reverts. -/
theorem C6_witness :
    openBatch (initialState 0) 0 =
      .ok ({ initialState 0 with
              currentBatchId := 1,
              isBatchOpen := setMapN (initialState 0).isBatchOpen 1 true },
        [.BatchOpened 1]) ∧
    closeBatch (initialState 0) 0 3 = .error .BatchClosedOrInvalid := by
  have h := C6_batch_lifecycle env0 0
  exact ⟨h.2.1 (initialState 0) 0 rfl rfl,
    h.2.2.2.2.2.2.2 (initialState 0) 0 3 rfl rfl rfl⟩

/-- Claim C10: myCallback imposes no caller-based access control; two
invocations differing only in the calling principal return the same outcome
and produce the same post-state. -/
theorem C10_callback_caller_independent (env : FheEnv) (s : ContractState)
    (requestId : Nat) (cleartexts proof : List Nat) (senderA senderB : Nat) :
    myCallback env s senderA requestId cleartexts proof =
      myCallback env s senderB requestId cleartexts proof ∧
    step env s (.callback senderA requestId cleartexts proof) =
      step env s (.callback senderB requestId cleartexts proof) :=
  ⟨rfl, rfl⟩

end Mev
